import Mathlib

/-! # fmt-yml-for-k8s: the formatter command of `main.go`

A shallow embedding of `main.go`.  The program is a straight line of calls into
the operating system and two libraries; each of those calls is a field of a
`World`, which says what the call returns, and `main` is a function from a
`World` and the flags given on the command line to an `Outcome`: the exit code,
the text printed to standard output and the list of calls made, in order.

The functions of the Go standard library that `main.go` calls on paths
(`filepath.Base`, `filepath.Join`, `filepath.Clean`, unix flavour) and on
errors (`os.IsNotExist`, `errors.Wrapf`, `Error()`) are embedded as well.
`flag.Parse` of the Go standard library is embedded as `Parse`, for the two
string flags `main.go` defines; `main` is the source function from the return
of `flag.Parse()` on, and `run` is the whole of it on a command line.
-/

namespace FmtYml

/-! ## Go error values -/

/-- The `syscall.Errno` values that occur below. -/
inductive Errno where
  | ENOENT
  | EACCES
  | EEXIST
  | ENOTDIR
  | EISDIR
  | ENOSPC
  deriving DecidableEq, Repr

/-- The text of `syscall.Errno.Error()` on linux. -/
def Errno.Error : Errno → String
  | .ENOENT => "no such file or directory"
  | .EACCES => "permission denied"
  | .EEXIST => "file exists"
  | .ENOTDIR => "not a directory"
  | .EISDIR => "is a directory"
  | .ENOSPC => "no space left on device"

/-- Go `error` values: a bare `syscall.Errno`, the sentinel `os.ErrNotExist`,
an `*os.PathError`, the value built by `errors.Wrapf` of
`github.com/pkg/errors`, and a plain message such as the YAML library
returns. -/
inductive Error where
  | errno (e : Errno)
  | ErrNotExist
  | pathError (op path : String) (err : Error)
  | withMessage (cause : Error) (msg : String)
  | errorString (s : String)
  deriving DecidableEq, Repr

/-- The method `Error()`, which `fmt.Printf` calls for the verb `%s`. -/
def Error.message : Error → String
  | .errno e => e.Error
  | .ErrNotExist => "file does not exist"
  | .pathError op path err => op ++ " " ++ path ++ ": " ++ err.message
  | .withMessage cause msg => msg ++ ": " ++ cause.message
  | .errorString s => s

/-- Go `os.underlyingError`: the error inside an `*os.PathError`. -/
def underlyingError : Error → Error
  | .pathError _ _ err => err
  | e => e

/-- Go `os.IsNotExist`: the underlying error is `os.ErrNotExist` or `ENOENT`. -/
def IsNotExist (err : Error) : Bool :=
  match underlyingError err with
  | .ErrNotExist => true
  | .errno .ENOENT => true
  | _ => false

/-- The call `errors.Wrapf(err, "failed to check if file exists %s", path)`. -/
def Wrapf (err : Error) (format : String) (path : String) : Error :=
  .withMessage err (format ++ path)

/-! ## The world the program runs in -/

/-- File content; `main` only passes it on. -/
abbrev Bytes := String

/-- What `main.go` reads of an `os.FileInfo`. -/
structure FileInfo where
  IsDir : Bool
  deriving DecidableEq, Repr

/-- The result of every call `main.go` makes outside itself.  `Doc` is the type
of the decoded document (`interface{}` in the source).  A call that returns
only an `error` is `none` on success. -/
structure World (Doc : Type) where
  Stat : String → Except Error FileInfo
  MkdirAll : String → Nat → Option Error
  ReadFile : String → Except Error Bytes
  Unmarshal : Bytes → Except Error Doc
  Marshal : Doc → Except Error Bytes
  WriteFile : String → Bytes → Nat → Option Error

/-- Source `fileExists`: `(true, nil)` when `os.Stat` succeeds, `(false, nil)`
when its error is a not-exist error, otherwise `true` and the wrapped error. -/
def fileExists {Doc : Type} (w : World Doc) (path : String) : Bool × Option Error :=
  match w.Stat path with
  | .ok _ => (true, none)
  | .error err =>
    if IsNotExist err then (false, none)
    else (true, some (Wrapf err "failed to check if file exists " path))

/-- Source `dirExists`: `(info.IsDir(), nil)` when `os.Stat` succeeds,
`(false, nil)` when its error is a not-exist error, otherwise `false` and the
error as it came. -/
def dirExists {Doc : Type} (w : World Doc) (path : String) : Bool × Option Error :=
  match w.Stat path with
  | .ok info => (info.IsDir, none)
  | .error err =>
    if IsNotExist err then (false, none)
    else (false, some err)

/-! ## Paths: `path/filepath` on unix -/

/-- Go `os.IsPathSeparator` on unix. -/
def IsPathSeparator (c : Char) : Bool := c == '/'

/-- Go `filepath.Base` on a string given by its characters: trailing
separators are stripped, then what follows the last separator is kept. -/
def baseChars (path : List Char) : List Char :=
  if path = [] then ['.']
  else
    let stripped := (path.reverse.dropWhile IsPathSeparator).reverse
    let last := (stripped.reverse.takeWhile (fun c => !IsPathSeparator c)).reverse
    if last = [] then ['/'] else last

/-- Go `filepath.Base`. -/
def Base (path : String) : String := ⟨baseChars path.data⟩

/-- The backtracking of `filepath.Clean` at a `..` element: the write index
moves left while it is above `dotdot` and the character under it is not a
separator.  The argument is the index after its first decrement. -/
def backtrack (buf : List Char) (dotdot : Nat) : Nat → Nat
  | 0 => 0
  | w + 1 =>
    if w + 1 > dotdot && !IsPathSeparator (buf.getD (w + 1) '/') then backtrack buf dotdot w
    else w + 1

/-- The main loop of `filepath.Clean`, on the characters not yet read.  `out`
is the buffer written so far and `dotdot` the index where `..` must stop.
`inElem` is true while a real path element is being copied (the inner loop of
the source). -/
def cleanLoop (rooted : Bool) : Bool → List Char → List Char → Nat → List Char
  | _, [], out, _ => out
  | true, c :: rest, out, dotdot =>
    if IsPathSeparator c then cleanLoop rooted false rest out dotdot
    else cleanLoop rooted true rest (out ++ [c]) dotdot
  | false, c :: rest, out, dotdot =>
    if IsPathSeparator c then
      -- empty path element
      cleanLoop rooted false rest out dotdot
    else if c == '.' && (rest.isEmpty || IsPathSeparator (rest.headD '/')) then
      -- . element
      cleanLoop rooted false rest out dotdot
    else
      match rest with
      | c1 :: rest2 =>
        if c == '.' && c1 == '.' && (rest2.isEmpty || IsPathSeparator (rest2.headD '/')) then
          -- .. element: remove to last separator
          if out.length > dotdot then
            cleanLoop rooted false rest2 (out.take (backtrack out dotdot (out.length - 1))) dotdot
          else if !rooted then
            let out1 := if out.length > 0 then out ++ ['/'] else out
            let out2 := out1 ++ ['.', '.']
            cleanLoop rooted false rest2 out2 out2.length
          else cleanLoop rooted false rest2 out dotdot
        else
          -- real path element: add slash if needed, copy element
          let out1 :=
            if (rooted && out.length != 1) || (!rooted && out.length != 0) then out ++ ['/']
            else out
          cleanLoop rooted true (c1 :: rest2) (out1 ++ [c]) dotdot
      | [] =>
        let out1 :=
          if (rooted && out.length != 1) || (!rooted && out.length != 0) then out ++ ['/']
          else out
        out1 ++ [c]

/-- Go `filepath.Clean` on a string given by its characters. -/
def cleanChars (path : List Char) : List Char :=
  match path with
  | [] => ['.']
  | c :: _ =>
    let rooted := IsPathSeparator c
    let out :=
      if rooted then cleanLoop rooted false path.tail ['/'] 1
      else cleanLoop rooted false path [] 0
    if out.length = 0 then ['.'] else out

/-- Go `filepath.Clean`. -/
def Clean (path : String) : String := ⟨cleanChars path.data⟩

/-- Go `filepath.Join`: the elements from the first non-empty one on, joined
with the separator and cleaned. -/
def Join : List String → String
  | [] => ""
  | e :: rest => if e ≠ "" then Clean ("/".intercalate (e :: rest)) else Join rest

/-! ## The command -/

/-- The flags given on the command line; `none` is a flag that is absent. -/
structure Invocation where
  file : Option String
  outputDir : Option String
  deriving DecidableEq, Repr

/-- Go `flag.String(name, value, usage)` once `flag.Parse()` has returned: the
address of a variable that holds the value given for the flag, or the default
`value` when the flag is absent.  An address is `some`; `nil` would be `none`. -/
def flagString (given : Option String) (value : String) : Option String :=
  some (given.getD value)

/-- A call `main` makes outside itself, with what it passes and, but for
`os.Stat`, whether the call succeeded. -/
inductive Call where
  | Stat (path : String)
  | MkdirAll (path : String) (perm : Nat) (ok : Bool)
  | ReadFile (path : String) (ok : Bool)
  | Unmarshal (data : Bytes) (ok : Bool)
  | Marshal (ok : Bool)
  | WriteFile (path : String) (data : Bytes) (perm : Nat) (ok : Bool)
  deriving DecidableEq, Repr

/-- What a run leaves behind: the argument of `os.Exit`, the text printed to
standard output and the calls made, first to last. -/
structure Outcome where
  exitCode : Nat
  stdout : String
  calls : List Call
  deriving DecidableEq, Repr

/-- The mode `main` passes to `os.MkdirAll` and to `ioutil.WriteFile`: the
octal literal `0760` of the source. -/
def outputPerm : Nat := 0o760

/-- Source `main` from the return of `flag.Parse()` on, given the flags that
`flag.Parse` stored.  With `flag.Parse` before it, it is `run`. -/
def main {Doc : Type} (w : World Doc) (inv : Invocation) : Outcome :=
  match flagString inv.file "" with
  | none => ⟨1, "No --file specified\n", []⟩
  | some inputFile =>
  match flagString inv.outputDir "" with
  | none => ⟨1, "No --output-dir specified\n", []⟩
  | some outputDir =>
  let c1 := [Call.Stat inputFile]
  match fileExists w inputFile with
  | (_, some err) =>
    ⟨1, "Error checking if input file " ++ inputFile ++ " exists:\n" ++ err.message, c1⟩
  | (false, none) => ⟨1, "Input file " ++ inputFile ++ " does not exist\n", c1⟩
  | (true, none) =>
  let c2 := c1 ++ [Call.Stat outputDir]
  match dirExists w outputDir with
  | (_, some err) =>
    ⟨1, "Error checking if output directory " ++ outputDir ++ " exists:\n" ++ err.message, c2⟩
  | (dirOk, none) =>
  let mkdirErr := if !dirOk then w.MkdirAll outputDir outputPerm else none
  let c3 := if !dirOk then c2 ++ [Call.MkdirAll outputDir outputPerm mkdirErr.isNone] else c2
  match mkdirErr with
  | some err => ⟨1, "Error creating output directory " ++ outputDir ++ ":\n" ++ err.message, c3⟩
  | none =>
  let outputFileName := Base inputFile
  match w.ReadFile inputFile with
  | .error err =>
    ⟨1, "Error reading input file " ++ inputFile ++ ":\n" ++ err.message,
      c3 ++ [Call.ReadFile inputFile false]⟩
  | .ok bytes =>
  let c4 := c3 ++ [Call.ReadFile inputFile true]
  match w.Unmarshal bytes with
  | .error err =>
    ⟨1, "Could not unmarshal contents of " ++ inputFile ++ " as YAML:\n" ++ err.message,
      c4 ++ [Call.Unmarshal bytes false]⟩
  | .ok yamlAsStruct =>
  let c5 := c4 ++ [Call.Unmarshal bytes true]
  match w.Marshal yamlAsStruct with
  | .error err =>
    ⟨1, "Could not marshal contents of " ++ inputFile ++ " as formatted YAML:\n" ++ err.message,
      c5 ++ [Call.Marshal false]⟩
  | .ok outputData =>
  let c6 := c5 ++ [Call.Marshal true]
  match w.WriteFile (Join [outputDir, outputFileName]) outputData outputPerm with
  | some err =>
    ⟨1, "Couldn't write formatted YAML to " ++ Join [outputDir, outputFileName] ++ ":\n"
        ++ err.message,
      c6 ++ [Call.WriteFile (Join [outputDir, outputFileName]) outputData outputPerm false]⟩
  | none =>
    ⟨0, "", c6 ++ [Call.WriteFile (Join [outputDir, outputFileName]) outputData outputPerm true]⟩

/-! ## The command line -/

/-- A small document type for the concrete worlds: a scalar or a mapping. -/
inductive Value where
  | null
  | str (s : String)
  | map (entries : List (String × String))
  deriving DecidableEq, Repr

/-- A world with a regular file `input/data.yml` holding `b: 1` and `a: 2`, a
regular file `input/bad.yml` holding an unbalanced flow mapping, their
directory `input`, a directory `locked` that may not be searched,
and nothing else.  Creating a directory succeeds unless its path is empty and
writing files succeeds; the codec sorts the keys. -/
def sampleWorld : World Value where
  Stat := fun p =>
    if p = "input/data.yml" then .ok ⟨false⟩
    else if p = "input/bad.yml" then .ok ⟨false⟩
    else if p = "input" then .ok ⟨true⟩
    else if p = "locked/data.yml" then .error (.pathError "stat" p (.errno .EACCES))
    else .error (.pathError "stat" p (.errno .ENOENT))
  MkdirAll := fun p _ =>
    if p = "" then some (.pathError "mkdir" p (.errno .ENOENT)) else none
  ReadFile := fun p =>
    if p = "input/data.yml" then .ok "b: 1\na:   2\n"
    else if p = "input/bad.yml" then .ok "\x7ba: b"
    else if p = "input" then .error (.pathError "read" p (.errno .EISDIR))
    else .error (.pathError "open" p (.errno .ENOENT))
  Unmarshal := fun b =>
    if b = "b: 1\na:   2\n" then .ok (.map [("a", "2"), ("b", "1")])
    else .error (.errorString "error converting YAML to JSON: yaml: line 1: did not find expected \x27,\x27 or \x27\x7d\x27")
  Marshal := fun v =>
    match v with
    | .map [("a", "2"), ("b", "1")] => .ok "a: 2\nb: 1\n"
    | _ => .ok "null\n"
  WriteFile := fun _ _ _ => none

/-- The run called `ioutil.WriteFile`. -/
def Outcome.writeAttempted (r : Outcome) : Prop := ∃ p b m ok, Call.WriteFile p b m ok ∈ r.calls

/-- The text `s` occurs in `t`. -/
def Contains (t s : String) : Prop := ∃ pre post, t = pre ++ s ++ post

/-! ## Permission bits -/

/-- The permission bits of an `os.FileMode`, as masks. -/
def ownerRead : Nat := 0o400

/-- Owner write. -/
def ownerWrite : Nat := 0o200

/-- Owner execute (search, for a directory). -/
def ownerExec : Nat := 0o100

/-- Group read. -/
def groupRead : Nat := 0o040

/-- Group write. -/
def groupWrite : Nat := 0o020

/-- Group execute (search, for a directory). -/
def groupExec : Nat := 0o010

/-- Others read. -/
def otherRead : Nat := 0o004

/-- Others write. -/
def otherWrite : Nat := 0o002

/-- Others execute (search, for a directory). -/
def otherExec : Nat := 0o001

/-- The mode has the permission bit set. -/
def grants (mode bit : Nat) : Bool := mode &&& bit != 0

/-- The world `sampleWorld` on a full disk: every write fails with `ENOSPC`. -/
def fullDiskWorld : World Value :=
  { sampleWorld with
    WriteFile := fun p _ _ => some (.pathError "write" p (.errno .ENOSPC)) }

/-! ## The existence checks -/

/-- C9: `dirExists` returns `(true, nil)` exactly when `os.Stat` succeeds on a
directory; `(false, nil)` when it succeeds on something that is not a
directory or fails with a not-exist error; and for any other error of
`os.Stat` it returns `false` with that very error, not wrapped. -/
theorem dirExists_spec {Doc : Type} (w : World Doc) (path : String) :
    (dirExists w path = (true, none) ↔
      ∃ info, w.Stat path = .ok info ∧ info.IsDir = true) ∧
    (∀ info, w.Stat path = .ok info → info.IsDir = false →
      dirExists w path = (false, none)) ∧
    (∀ err, w.Stat path = .error err → IsNotExist err = true →
      dirExists w path = (false, none)) ∧
    (∀ err, w.Stat path = .error err → IsNotExist err = false →
      dirExists w path = (false, some err)) := by
  unfold dirExists
  cases h : w.Stat path with
  | ok info => simp
  | error err => cases hn : IsNotExist err <;> simp [hn]

/-- The witness of `dirExists_spec`: a directory, a regular file, a path that
is not there and a path whose `os.Stat` is refused. -/
theorem dirExists_spec_witness :
    dirExists sampleWorld "input" = (true, none) ∧
    dirExists sampleWorld "input/data.yml" = (false, none) ∧
    dirExists sampleWorld "out" = (false, none) ∧
    dirExists sampleWorld "locked/data.yml"
      = (false, some (.pathError "stat" "locked/data.yml" (.errno .EACCES))) :=
  ⟨(dirExists_spec sampleWorld "input").1.2 ⟨⟨true⟩, rfl, rfl⟩,
   (dirExists_spec sampleWorld "input/data.yml").2.1 ⟨false⟩ rfl rfl,
   (dirExists_spec sampleWorld "out").2.2.1 _ rfl rfl,
   (dirExists_spec sampleWorld "locked/data.yml").2.2.2 _ rfl rfl⟩

/-- C10: `fileExists` returns `(true, nil)` when `os.Stat` succeeds and
`(false, nil)` when its error is a not-exist error; for any other error it
returns an error that wraps the error of `os.Stat` under a message naming the
check and the path.  Exactly one of the three cases holds, so an error is
returned exactly when `os.Stat` fails with something other than not-exist. -/
theorem fileExists_spec {Doc : Type} (w : World Doc) (path : String) :
    (∀ info, w.Stat path = .ok info → fileExists w path = (true, none)) ∧
    (∀ err, w.Stat path = .error err → IsNotExist err = true →
      fileExists w path = (false, none)) ∧
    (∀ err, w.Stat path = .error err → IsNotExist err = false →
      (fileExists w path).2
          = some (.withMessage err ("failed to check if file exists " ++ path)) ∧
        ∀ e, (fileExists w path).2 = some e →
          e.message = "failed to check if file exists " ++ path ++ ": " ++ err.message) ∧
    ((∃ info, w.Stat path = .ok info) ∨
      (∃ err, w.Stat path = .error err ∧ IsNotExist err = true) ∨
      (∃ err, w.Stat path = .error err ∧ IsNotExist err = false)) ∧
    ¬ ((∃ info, w.Stat path = .ok info) ∧ ∃ err, w.Stat path = .error err) ∧
    ¬ ((∃ err, w.Stat path = .error err ∧ IsNotExist err = true) ∧
        ∃ err, w.Stat path = .error err ∧ IsNotExist err = false) ∧
    ((fileExists w path).2 ≠ none ↔
      ∃ err, w.Stat path = .error err ∧ IsNotExist err = false) := by
  unfold fileExists
  cases h : w.Stat path with
  | ok info => simp
  | error err => cases hn : IsNotExist err <;> simp [hn, Wrapf, Error.message]

/-- The witness of `fileExists_spec`: a file, a path that is not there and a
path whose `os.Stat` is refused. -/
theorem fileExists_spec_witness :
    fileExists sampleWorld "input/data.yml" = (true, none) ∧
    fileExists sampleWorld "out/data.yml" = (false, none) ∧
    (fileExists sampleWorld "locked/data.yml").2
      = some (.withMessage (.pathError "stat" "locked/data.yml" (.errno .EACCES))
          "failed to check if file exists locked/data.yml") :=
  ⟨(fileExists_spec sampleWorld "input/data.yml").1 ⟨false⟩ rfl,
   (fileExists_spec sampleWorld "out/data.yml").2.1 _ rfl rfl,
   ((fileExists_spec sampleWorld "locked/data.yml").2.2.1 _ rfl rfl).1⟩

/-! ## Runs of `main` -/

/-- C4: when `os.Stat` of the input path reports not-exist, `main` exits with
code 1, what it prints contains "does not exist", and the run makes no call
but that `os.Stat`: no directory and no output file is created. -/
theorem main_input_not_found {Doc : Type} (w : World Doc) (inputFile : String)
    (outputDir : Option String) (err : Error)
    (hstat : w.Stat inputFile = .error err) (hne : IsNotExist err = true) :
    (main w ⟨some inputFile, outputDir⟩).exitCode = 1 ∧
    Contains (main w ⟨some inputFile, outputDir⟩).stdout "does not exist" ∧
    (main w ⟨some inputFile, outputDir⟩).calls = [.Stat inputFile] ∧
    ¬ (main w ⟨some inputFile, outputDir⟩).writeAttempted := by
  have hf : fileExists w inputFile = (false, none) := by simp [fileExists, hstat, hne]
  have hm : main w ⟨some inputFile, outputDir⟩
      = ⟨1, "Input file " ++ inputFile ++ " does not exist\n", [.Stat inputFile]⟩ := by
    simp [main, flagString, hf]
  rw [hm]
  refine ⟨rfl, ⟨"Input file " ++ inputFile ++ " ", "\n", ?_⟩, rfl, ?_⟩
  · show "Input file " ++ inputFile ++ " does not exist\n"
      = "Input file " ++ inputFile ++ " " ++ "does not exist" ++ "\n"
    have hlit : " does not exist\n" = " " ++ ("does not exist" ++ "\n") := by decide
    rw [hlit]
    simp only [String.append_assoc]
  · simp [Outcome.writeAttempted]

/-- The witness of `main_input_not_found`: the input `missing.yml`. -/
theorem main_input_not_found_witness :
    (main sampleWorld ⟨some "missing.yml", some "out/"⟩).exitCode = 1 ∧
    Contains (main sampleWorld ⟨some "missing.yml", some "out/"⟩).stdout "does not exist" ∧
    (main sampleWorld ⟨some "missing.yml", some "out/"⟩).calls = [.Stat "missing.yml"] ∧
    ¬ (main sampleWorld ⟨some "missing.yml", some "out/"⟩).writeAttempted :=
  main_input_not_found sampleWorld "missing.yml" (some "out/")
    (.pathError "stat" "missing.yml" (.errno .ENOENT)) rfl rfl

/-- Every call of `ioutil.WriteFile` in a run is its last call, comes after a
successful read, decode and encode, and carries the encoded bytes, the joined
path and the mode `0760`; its success decides the exit code. -/
theorem main_write_shape {Doc : Type} (w : World Doc) (inv : Invocation)
    (p : String) (data : Bytes) (m : Nat) (ok : Bool)
    (hmem : Call.WriteFile p data m ok ∈ (main w inv).calls) :
    ∃ before b v,
      (main w inv).calls = before ++ [Call.WriteFile p data m ok] ∧
      Call.ReadFile (inv.file.getD "") true ∈ before ∧
      Call.Unmarshal b true ∈ before ∧
      Call.Marshal true ∈ before ∧
      (∀ q d n o, Call.WriteFile q d n o ∉ before) ∧
      fileExists w (inv.file.getD "") = (true, none) ∧
      (dirExists w (inv.outputDir.getD "")).2 = none ∧
      w.ReadFile (inv.file.getD "") = .ok b ∧
      w.Unmarshal b = .ok v ∧
      w.Marshal v = .ok data ∧
      p = Join [inv.outputDir.getD "", Base (inv.file.getD "")] ∧
      m = outputPerm ∧
      ok = (w.WriteFile p data m).isNone ∧
      (main w inv).exitCode = if ok then 0 else 1 := by
  revert hmem
  unfold main
  simp only [flagString]
  repeat' split
  all_goals intro hmem
  all_goals simp at hmem
  all_goals obtain ⟨rfl, rfl, rfl, rfl⟩ := hmem
  all_goals
    refine ⟨_, _, _, rfl, ?_, ?_, ?_, ?_, ?_, ?_, by assumption, by assumption, by assumption, ?_⟩
  all_goals simp_all

/-- On `dir/name`, where `name` is not empty and has no separator, the base
name is `name`. -/
theorem baseChars_dir_name (dir name : List Char) (hne : name ≠ [])
    (hsep : ∀ c ∈ name, IsPathSeparator c = false) :
    baseChars (dir ++ '/' :: name) = name := by
  have hrev : (dir ++ '/' :: name).reverse = name.reverse ++ '/' :: dir.reverse := by simp
  obtain ⟨x, xs, hx⟩ : ∃ x xs, name.reverse = x :: xs := by
    cases h : name.reverse with
    | nil => exact absurd (List.reverse_eq_nil_iff.mp h) hne
    | cons x xs => exact ⟨x, xs, rfl⟩
  have hxsep : IsPathSeparator x = false :=
    hsep x (by rw [← List.mem_reverse, hx]; exact List.mem_cons_self _ _)
  have hdrop : ((dir ++ '/' :: name).reverse.dropWhile IsPathSeparator).reverse
      = dir ++ '/' :: name := by
    rw [hrev, hx, List.cons_append, List.dropWhile_cons_of_neg (by simp [hxsep]),
      ← List.cons_append, ← hx, ← hrev, List.reverse_reverse]
  have htake : (name.reverse ++ '/' :: dir.reverse).takeWhile (fun c => !IsPathSeparator c)
      = name.reverse := by
    rw [List.takeWhile_append_of_pos, List.takeWhile_cons_of_neg, List.append_nil]
    · simp [IsPathSeparator]
    · intro c hc
      simp [hsep c (List.mem_reverse.mp hc)]
  have hpath : dir ++ '/' :: name ≠ [] := by simp
  unfold baseChars
  rw [if_neg hpath]
  show (if ((((dir ++ '/' :: name).reverse.dropWhile IsPathSeparator).reverse).reverse.takeWhile
      (fun c => !IsPathSeparator c)).reverse = [] then ['/']
    else ((((dir ++ '/' :: name).reverse.dropWhile IsPathSeparator).reverse).reverse.takeWhile
      (fun c => !IsPathSeparator c)).reverse) = name
  rw [hdrop, hrev, htake, List.reverse_reverse, if_neg hne]

/-- C2: every call of `ioutil.WriteFile` in a run of `main` is on the path
`filepath.Join(outputDir, filepath.Base(inputFile))`.  The base name of
`dir/name` is `name` whatever `dir` is, so the directories of the input path
do not reach the output path: with the output directory `out/` both
`input/data.yml` and `a/b/c/data.yml` are written to `out/data.yml`. -/
theorem main_output_path {Doc : Type} (w : World Doc) :
    (∀ inv p data m ok, Call.WriteFile p data m ok ∈ (main w inv).calls →
      p = Join [inv.outputDir.getD "", Base (inv.file.getD "")]) ∧
    (∀ dir name : String, name ≠ "" → (∀ c ∈ name.data, c ≠ '/') →
      Base (dir ++ "/" ++ name) = name ∧
      ∀ outputDir p data m ok,
        Call.WriteFile p data m ok ∈ (main w ⟨some (dir ++ "/" ++ name), some outputDir⟩).calls →
        p = Join [outputDir, name]) ∧
    Join ["out/", Base "input/data.yml"] = "out/data.yml" ∧
    Join ["out/", Base "a/b/c/data.yml"] = "out/data.yml" := by
  have hall : ∀ inv p data m ok, Call.WriteFile p data m ok ∈ (main w inv).calls →
      p = Join [inv.outputDir.getD "", Base (inv.file.getD "")] := by
    intro inv p data m ok hmem
    obtain ⟨_, _, _, -, -, -, -, -, -, -, -, -, -, hp, -⟩ := main_write_shape w inv p data m ok hmem
    exact hp
  refine ⟨hall, ?_, by decide, by decide⟩
  intro dir name hne hsep
  have hbase : Base (dir ++ "/" ++ name) = name := by
    have hdata : (dir ++ "/" ++ name).data = dir.data ++ '/' :: name.data := by
      simp [String.data_append]
    unfold Base
    rw [hdata, baseChars_dir_name]
    · intro h
      exact hne (String.ext h)
    · intro c hc
      simpa [IsPathSeparator] using hsep c hc
  refine ⟨hbase, ?_⟩
  intro outputDir p data m ok hmem
  have hp := hall _ p data m ok hmem
  simpa [hbase] using hp

/-- The witness of `main_output_path`: the name `data.yml` under `a/b/c`, and
the write of the run on `input/data.yml`. -/
theorem main_output_path_witness :
    Base ("a/b/c" ++ "/" ++ "data.yml") = "data.yml" ∧
    "out/data.yml" = Join [(some "out/").getD "", Base ((some "input/data.yml").getD "")] :=
  ⟨((main_output_path sampleWorld).2.1 "a/b/c" "data.yml" (by decide) (by decide)).1,
   (main_output_path sampleWorld).1 ⟨some "input/data.yml", some "out/"⟩ "out/data.yml"
     "a: 2\nb: 1\n" outputPerm true (by decide)⟩

/-! ## The input path -/

/-- C5: on the directory `input`, for which `os.Stat` succeeds, `fileExists`
returns `(true, nil)`, and the run goes on past the check: it stats and
creates the output directory and fails only at the read, with the read
diagnostic and not with "does not exist". -/
theorem fileExists_directory :
    sampleWorld.Stat "input" = .ok ⟨true⟩ ∧
    fileExists sampleWorld "input" = (true, none) ∧
    main sampleWorld ⟨some "input", some "out/"⟩
      = ⟨1, "Error reading input file input:\nread input: is a directory",
          [.Stat "input", .Stat "out/", .MkdirAll "out/" 0o760 true,
            .ReadFile "input" false]⟩ :=
  ⟨rfl, by decide, by decide⟩

/-- C6: the address `flag.String` returns is never `nil`, so every run starts
with `os.Stat` on the value of `--file`, which is the empty string when the
flag is absent.  Without `--file` the run prints the does-not-exist message
for the empty path; without `--output-dir` it tries to create the directory of
the empty path and prints that error.  Neither prints a missing-parameter
message. -/
theorem main_missing_flag {Doc : Type} (w : World Doc) (inv : Invocation) :
    (main w inv).calls.head? = some (.Stat (inv.file.getD "")) ∧
    main sampleWorld ⟨none, some "out/"⟩
      = ⟨1, "Input file  does not exist\n", [.Stat ""]⟩ ∧
    main sampleWorld ⟨some "input/data.yml", none⟩
      = ⟨1, "Error creating output directory :\nmkdir : no such file or directory",
          [.Stat "input/data.yml", .Stat "", .MkdirAll "" 0o760 false]⟩ := by
  refine ⟨?_, by decide, by decide⟩
  unfold main
  simp only [flagString]
  repeat' split
  all_goals simp

/-! ## The output directory -/

/-- C7, as stated, does not hold: the mode `0760` does not give the group the
execute bit. -/
theorem outputPerm_group_not_execute :
    ¬ (outputPerm = 0o760 ∧
      grants outputPerm ownerRead = true ∧ grants outputPerm ownerWrite = true ∧
      grants outputPerm ownerExec = true ∧
      grants outputPerm groupRead = true ∧ grants outputPerm groupExec = true ∧
      grants outputPerm otherRead = false ∧ grants outputPerm otherWrite = false ∧
      grants outputPerm otherExec = false) := by
  decide

/-- C7, amended: every call of `os.MkdirAll` in a run of `main` is on the
output directory with the mode `0760`, and that mode gives the owner read,
write and execute, the group read and write but not execute, and others
nothing. -/
theorem main_mkdir_perm {Doc : Type} (w : World Doc) (inv : Invocation) :
    (∀ p m ok, Call.MkdirAll p m ok ∈ (main w inv).calls →
      p = inv.outputDir.getD "" ∧ m = 0o760) ∧
    outputPerm = 0o760 ∧
    grants 0o760 ownerRead = true ∧ grants 0o760 ownerWrite = true ∧
    grants 0o760 ownerExec = true ∧
    grants 0o760 groupRead = true ∧ grants 0o760 groupWrite = true ∧
    grants 0o760 groupExec = false ∧
    grants 0o760 otherRead = false ∧ grants 0o760 otherWrite = false ∧
    grants 0o760 otherExec = false := by
  refine ⟨?_, by decide, by decide, by decide, by decide, by decide, by decide, by decide,
    by decide, by decide, by decide⟩
  unfold main
  simp only [flagString]
  repeat' split
  all_goals simp [outputPerm]
  all_goals intro p m
  all_goals exact ⟨fun hp hm _ => ⟨hp, hm⟩, fun hp hm _ => ⟨hp, hm⟩⟩

/-- The witness of `main_mkdir_perm`: the creation of `out/` in the run on
`input/data.yml`. -/
theorem main_mkdir_perm_witness :
    "out/" = (some "out/").getD "" ∧ 0o760 = 0o760 :=
  (main_mkdir_perm sampleWorld ⟨some "input/data.yml", some "out/"⟩).1 "out/" 0o760 true
    (by decide)

/-- C8, as stated, does not hold: on a full disk the input file exists, reads,
decodes and encodes, the output directory is not there and its creation
succeeds, and yet the run exits with 1, its write having failed. -/
theorem main_full_disk :
    fileExists fullDiskWorld "input/data.yml" = (true, none) ∧
    fullDiskWorld.ReadFile "input/data.yml" = .ok "b: 1\na:   2\n" ∧
    fullDiskWorld.Unmarshal "b: 1\na:   2\n" = .ok (.map [("a", "2"), ("b", "1")]) ∧
    fullDiskWorld.Marshal (.map [("a", "2"), ("b", "1")]) = .ok "a: 2\nb: 1\n" ∧
    fullDiskWorld.Stat "out/" = .error (.pathError "stat" "out/" (.errno .ENOENT)) ∧
    fullDiskWorld.MkdirAll "out/" 0o760 = none ∧
    main fullDiskWorld ⟨some "input/data.yml", some "out/"⟩
      = ⟨1, "Couldn\x27t write formatted YAML to out/data.yml:\nwrite out/data.yml: no space left on device",
          [.Stat "input/data.yml", .Stat "out/", .MkdirAll "out/" 0o760 true,
            .ReadFile "input/data.yml" true, .Unmarshal "b: 1\na:   2\n" true, .Marshal true,
            .WriteFile "out/data.yml" "a: 2\nb: 1\n" 0o760 false]⟩ ∧
    (main fullDiskWorld ⟨some "input/data.yml", some "out/"⟩).exitCode ≠ 0 :=
  ⟨by decide, rfl, rfl, rfl, rfl, by decide, by decide, by decide⟩

/-- C8, amended: when the input file exists, reads, decodes and encodes, and
`os.Stat` of the output directory reports not-exist, `main` calls
`os.MkdirAll` on the output directory; when that succeeds the run goes on to
call `ioutil.WriteFile` with the encoded bytes on
`filepath.Join(outputDir, filepath.Base(inputFile))`, and exits with 0 when the
write succeeds and with 1 when it fails.  When the output directory exists as
a directory the run has no call of `os.MkdirAll`. -/
theorem main_creates_output_dir {Doc : Type} (w : World Doc) (inputFile outputDir : String) :
    (∀ b v data err, fileExists w inputFile = (true, none) → w.ReadFile inputFile = .ok b →
      w.Unmarshal b = .ok v → w.Marshal v = .ok data →
      w.Stat outputDir = .error err → IsNotExist err = true →
      Call.MkdirAll outputDir 0o760 (w.MkdirAll outputDir 0o760).isNone
        ∈ (main w ⟨some inputFile, some outputDir⟩).calls ∧
      (w.MkdirAll outputDir 0o760 = none →
        (main w ⟨some inputFile, some outputDir⟩).calls
          = [.Stat inputFile, .Stat outputDir, .MkdirAll outputDir 0o760 true,
              .ReadFile inputFile true, .Unmarshal b true, .Marshal true,
              .WriteFile (Join [outputDir, Base inputFile]) data 0o760
                (w.WriteFile (Join [outputDir, Base inputFile]) data 0o760).isNone] ∧
        (w.WriteFile (Join [outputDir, Base inputFile]) data 0o760 = none →
          (main w ⟨some inputFile, some outputDir⟩).exitCode = 0) ∧
        (w.WriteFile (Join [outputDir, Base inputFile]) data 0o760 ≠ none →
          (main w ⟨some inputFile, some outputDir⟩).exitCode = 1))) ∧
    (∀ info, w.Stat outputDir = .ok info → info.IsDir = true →
      ∀ p m ok, Call.MkdirAll p m ok ∉ (main w ⟨some inputFile, some outputDir⟩).calls) := by
  constructor
  · intro b v data err hfe hr hu hm hstat hne
    have hde : dirExists w outputDir = (false, none) := by simp [dirExists, hstat, hne]
    cases hmk : w.MkdirAll outputDir 0o760 with
    | some e => simp [main, flagString, hfe, hde, outputPerm, hmk]
    | none =>
      cases hwr : w.WriteFile (Join [outputDir, Base inputFile]) data 0o760 with
      | some e => simp [main, flagString, hfe, hde, outputPerm, hmk, hr, hu, hm, hwr]
      | none => simp [main, flagString, hfe, hde, outputPerm, hmk, hr, hu, hm, hwr]
  · intro info hstat hdir
    have hde : dirExists w outputDir = (true, none) := by simp [dirExists, hstat, hdir]
    unfold main
    simp only [flagString, hde]
    repeat' split
    all_goals simp_all

/-- The witness of `main_creates_output_dir`: the run on `input/data.yml` into
the missing `out/`, and the run into the existing directory `input`. -/
theorem main_creates_output_dir_witness :
    (main sampleWorld ⟨some "input/data.yml", some "out/"⟩).calls
      = [.Stat "input/data.yml", .Stat "out/", .MkdirAll "out/" 0o760 true,
          .ReadFile "input/data.yml" true, .Unmarshal "b: 1\na:   2\n" true, .Marshal true,
          .WriteFile (Join ["out/", Base "input/data.yml"]) "a: 2\nb: 1\n" 0o760
            (sampleWorld.WriteFile (Join ["out/", Base "input/data.yml"]) "a: 2\nb: 1\n"
              0o760).isNone] ∧
    (main sampleWorld ⟨some "input/data.yml", some "out/"⟩).exitCode = 0 ∧
    Call.MkdirAll "input" 0o760 true
      ∉ (main sampleWorld ⟨some "input/data.yml", some "input"⟩).calls :=
  have h := ((main_creates_output_dir sampleWorld "input/data.yml" "out/").1
    "b: 1\na:   2\n" (.map [("a", "2"), ("b", "1")]) "a: 2\nb: 1\n"
    (.pathError "stat" "out/" (.errno .ENOENT)) rfl rfl rfl rfl rfl rfl).2 rfl
  ⟨h.1, h.2.1 rfl,
    (main_creates_output_dir sampleWorld "input/data.yml" "input").2 ⟨true⟩ rfl rfl
      "input" 0o760 true⟩

/-! ## Runs from the command line -/

end FmtYml
